import Mathlib

/-!
Verification development for the `remap` event-ingestion and geo-temporal
query system.  The definitions below are shallow embeddings of the Python
sources under `backend/app`:

* `ingest_service.py` — `normalize_text`, `calculate_hash`,
  `ingest_events_from_file` (the per-event dedup/upsert loop);
* `json_delta_service.py` — `generate_content_hash`, `compute_json_delta`;
* `openroute_service.py` — `cleanup_cache`, `geocode_address`
  (SQLite tables become lists of rows);
* `qdrant_service.py` — the filter constructors and their evaluation
  under Qdrant's documented `must`/range semantics;
* `routes.py` — the corridor-polygon construction and the final
  distance/progress re-sort of `create_event_map`;
* `csv_delta_service.py` — `compute_csv_delta`.

External services (Qdrant, shapely/geopandas geometry kernels, geocoding
providers, the embedding models) are modelled as explicit parameters or as
explicit state, following the sources' call structure.  Cryptographic
digests (SHA-256, MD5) are modelled as injective encodings of their input
string: every use in the sources only ever compares digests for equality,
so a collision-free model preserves each property under study.
-/

namespace Remap

/-- Model of `hashlib.sha256(text.encode()).hexdigest()`.  The sources only
compare digests for equality, so SHA-256 is modelled as an injective
(collision-free) encoding of the input string. -/
def sha256_hex (s : String) : String := s

/-- Model of `hashlib.md5(s.encode()).hexdigest()`, same modelling choice
as `sha256_hex`. -/
def md5_hex (s : String) : String := s

/-- Model of `unicodedata.normalize("NFKC", s)`: an unspecified
deterministic map on strings, modelled as the identity (every property the
claims rely on only needs it to be a pure function of its input). -/
def nfkc (s : String) : String := s

/-- Python `str.strip()`: drop whitespace from both ends. -/
def pyStrip (s : String) : String :=
  String.mk
    (((s.toList.dropWhile Char.isWhitespace).reverse.dropWhile
        Char.isWhitespace).reverse)

/-- Python `str.lower()`. -/
def pyLower (s : String) : String :=
  String.mk (s.toList.map Char.toLower)

/-- `ingest_service.normalize_text`: empty/falsy text maps to `""`;
otherwise strip surrounding whitespace, truncate to 1000 characters
(`[:1000]`) and apply NFKC normalization. -/
def normalize_text (text : String) : String :=
  if text = "" then ""
  else nfkc (String.mk ((pyStrip text).toList.take 1000))

/-- `ingest_service.calculate_hash`. -/
def calculate_hash (text : String) : String := sha256_hex text

/-- A standardized event record as consumed by the ingestion and delta
services.  Python `event.get(field, "")` accesses are modelled by total
`String` fields (`""` standing for an absent value); `delta_type` mirrors
the optional tag set by the delta classifier. -/
structure Event where
  id : String
  title : String
  description : String
  start_date : String
  end_date : String
  delta_type : Option String := none
  deriving DecidableEq, Repr

/-- `json_delta_service.generate_content_hash`: digest of the f-string
concatenation of title, description, start and end dates. -/
def generate_content_hash (e : Event) : String :=
  sha256_hex (e.title ++ e.description ++ e.start_date ++ e.end_date)

/-- The content hash the ingestion loop actually computes for an event
(`chunk_hash = calculate_hash(text)` where
`text = normalize_text(event.get("description", ""))`). -/
def ingest_chunk_hash (e : Event) : String :=
  calculate_hash (normalize_text e.description)

/-! ### Vector-index model for the ingestion loop

A stored point keeps its Qdrant point id (`pid`), the natural key stored
in its payload under `"id"` (`payload_id`) and the payload field
`"hash"`.  Vectors and the remaining payload fields never influence the
insert/update/skip decision, so they are omitted.  `client.scroll` with a
`MatchValue` filter on the payload `"id"` and `limit=1` is modelled as
first-match lookup; `client.upsert` with an existing point id replaces
that point, and with a fresh id appends. -/

structure Pnt where
  pid : String
  payload_id : String
  hash : String
  deriving DecidableEq, Repr

abbrev Index := List Pnt

/-- Model of the `client.scroll(..., scroll_filter = id match, limit=1)`
existence check: the first stored point whose payload `"id"` equals the
event id. -/
def scroll_by_event_id (idx : Index) (eid : String) : Option Pnt :=
  idx.find? (fun p => p.payload_id = eid)

/-- Replace the first point whose payload id matches (the point found by
the preceding scroll) — the effect of upserting under that point's id. -/
def replace_first : Index → String → Pnt → Index
  | [], _, _ => []
  | p :: rest, eid, np =>
      if p.payload_id = eid then np :: rest
      else p :: replace_first rest eid np

inductive IngestOutcome where
  | skippedUnchanged
  | updatedExisting
  | insertedNew
  | noId
  deriving DecidableEq, Repr

/-- Counters returned by `ingest_events_from_file`. -/
structure IngestCounts where
  inserted : Nat
  updated : Nat
  skipped_unchanged : Nat
  deriving DecidableEq, Repr

def IngestCounts.bump (o : IngestOutcome) (c : IngestCounts) : IngestCounts :=
  match o with
  | .insertedNew => { c with inserted := c.inserted + 1 }
  | .updatedExisting => { c with updated := c.updated + 1 }
  | .skippedUnchanged => { c with skipped_unchanged := c.skipped_unchanged + 1 }
  | .noId => c

/-- One iteration of the per-event loop of
`ingest_service.ingest_events_from_file` (lines 180–254): events with a
falsy id are skipped with a warning; otherwise the event's chunk hash is
compared against the stored point's `"hash"`; on mismatch the existing
point id is reused (`point_id_to_use = existing_point.id`), on absence a
fresh `str(uuid4())` is drawn.  `uuid4` is random: it is modelled by an
explicit draw `fresh n` from an arbitrary supply `fresh : Nat → String`.
Per-batch upsert buffering is modelled as an immediate upsert, which has
the same observable behaviour whenever event ids are pairwise distinct. -/
def ingest_event (fresh : Nat → String) (idx : Index) (n : Nat) (e : Event) :
    IngestOutcome × Index × Nat :=
  if e.id = "" then (.noId, idx, n)
  else
    let chunk_hash := ingest_chunk_hash e
    match scroll_by_event_id idx e.id with
    | some p =>
        if p.hash = chunk_hash then (.skippedUnchanged, idx, n)
        else (.updatedExisting, replace_first idx e.id ⟨p.pid, e.id, chunk_hash⟩, n)
    | none => (.insertedNew, idx ++ [⟨fresh n, e.id, chunk_hash⟩], n + 1)

/-- The full ingestion loop over a snapshot: returns the counters, the
resulting index state, and the number of uuid draws consumed. -/
def run_ingest (fresh : Nat → String) :
    List Event → Index → Nat → IngestCounts × Index × Nat
  | [], idx, n => (⟨0, 0, 0⟩, idx, n)
  | e :: rest, idx, n =>
      let s := ingest_event fresh idx n e
      let r := run_ingest fresh rest s.2.1 s.2.2
      (r.1.bump s.1, r.2)

/-! ### Keyed JSON delta (`json_delta_service.compute_json_delta`)

Python builds `old_map = {e['id']: e for e in old_events}` (and likewise
`new_map`) and iterates the dicts.  A CPython dict comprehension keeps the
insertion position of the first occurrence of a key and the value of the
last occurrence; `pyDict` reproduces exactly that as an association
list. -/

/-- One dict-insertion step: overwrite the value in place if the key is
already present, otherwise append. -/
def pyInsert (acc : List (String × Event)) (e : Event) : List (String × Event) :=
  if (acc.find? (fun kv => kv.1 = e.id)).isSome then
    acc.map (fun kv => if kv.1 = e.id then (kv.1, e) else kv)
  else acc ++ [(e.id, e)]

/-- `{e['id']: e for e in l}` with CPython dict semantics. -/
def pyDict (l : List Event) : List (String × Event) :=
  l.foldl pyInsert []

/-- Association-list lookup (`eid in old_map` / `old_map[eid]`). -/
def lookupA (u : List (String × Event)) (k : String) : Option Event :=
  (u.find? (fun kv => kv.1 = k)).map Prod.snd

/-- Snapshot membership through the id-keyed dict, i.e. `k in {e['id']: e
for e in l}`. -/
def pyLookup (l : List Event) (k : String) : Option Event :=
  lookupA (pyDict l) k

/-- Python `e["delta_type"] = tag` on a record. -/
def setTag (e : Event) (tag : String) : Event :=
  { e with delta_type := some tag }

/-- Step 1 of `compute_json_delta`, for one entry of `new_map`: key not
in `old_map` ⇒ tag "added"; otherwise compare content hashes and tag
"changed" on mismatch, emit nothing on a match. -/
def jd_addedChanged (old_map : List (String × Event)) (kv : String × Event) :
    Option Event :=
  match lookupA old_map kv.1 with
  | none => some (setTag kv.2 "added")
  | some oe =>
      if generate_content_hash kv.2 ≠ generate_content_hash oe then
        some (setTag kv.2 "changed")
      else none

/-- Step 2 of `compute_json_delta`, for one entry of `old_map`: key not
in `new_map` ⇒ tag the former record "removed". -/
def jd_removed (new_map : List (String × Event)) (kv : String × Event) :
    Option Event :=
  if (lookupA new_map kv.1).isNone then some (setTag kv.2 "removed")
  else none

/-- `json_delta_service.compute_json_delta` (lines 15–60).  The two
snapshot files become the optional previous event list (`none` = the old
file does not exist) and the current event list; the function returns the
tagged records: added/changed from iterating `new_map`, then removed from
iterating `old_map`. -/
def compute_json_delta (old : Option (List Event)) (newL : List Event) :
    List Event :=
  match old with
  | none => newL.map (fun e => setTag e "added")
  | some oldL =>
      let old_map := pyDict oldL
      let new_map := pyDict newL
      new_map.filterMap (jd_addedChanged old_map) ++
        old_map.filterMap (jd_removed new_map)

/-- First record with the given id in a tagged output list. -/
def findById (l : List Event) (k : String) : Option Event :=
  l.find? (fun e => e.id = k)

/-- The delta classification the claim describes, written from the spec's
words, as the record (if any) emitted for key `k`: present only in the
current snapshot ⇒ its new record tagged "added"; present in both with
differing content hashes ⇒ the new record tagged "changed"; present only
in the previous snapshot ⇒ the former record tagged "removed"; present in
both with equal hashes ⇒ no record. -/
def keyed_delta_spec (oldL newL : List Event) (k : String) : Option Event :=
  match pyLookup newL k, pyLookup oldL k with
  | some ne, none => some (setTag ne "added")
  | some ne, some oe =>
      if generate_content_hash ne ≠ generate_content_hash oe then
        some (setTag ne "changed")
      else none
  | none, some oe => some (setTag oe "removed")
  | none, none => none

/-! ### External lookup cache (`openroute_service.py`)

The SQLite tables become lists of rows.  `cleanup_cache` is generic over
the row type, like the Python function is generic over the table name and
hash column: the key, creation and expiry columns are passed as
projections.  `ORDER BY created ASC LIMIT excess` leaves the order among
equal `created` values unspecified; it is modelled by a stable insertion
sort, one of the admissible orders. -/

def CACHE_TTL : Int := 90 * 86400

def MAX_CACHE_SIZE : Nat := 20000

/-- The bulk eviction of `cleanup_cache`: `DELETE ... WHERE hash_col IN
(SELECT hash_col ... ORDER BY created ASC LIMIT excess)` with `excess =
size - MAX_CACHE_SIZE // 2` — remove the rows whose key is among the
`excess` oldest-created survivors. -/
def cleanup_evict {α : Type} (key : α → String) (created : α → Int)
    (survivors : List α) : List α :=
  let excess := survivors.length - MAX_CACHE_SIZE / 2
  let victims :=
    (survivors.insertionSort (fun a b => created a ≤ created b)).take excess
  survivors.filter (fun r => ¬ victims.any (fun v => key v = key r))

/-- `openroute_service.cleanup_cache` (lines 98–126): delete the rows with
`expires <= now`; count the remaining rows; if the count has reached
`MAX_CACHE_SIZE`, bulk-evict the oldest-created survivors. -/
def cleanup_cache {α : Type} (key : α → String) (created : α → Int)
    (expires : α → Int) (now : Int) (rows : List α) : List α :=
  let survivors := rows.filter (fun r => now < expires r)
  if MAX_CACHE_SIZE ≤ survivors.length then cleanup_evict key created survivors
  else survivors

/-- A row of the `geocode_cache` table. -/
structure GeoRow where
  address_hash : String
  address : String
  lon : ℚ
  lat : ℚ
  expires : Int
  created : Int
  deriving DecidableEq, Repr

/-- `cleanup_cache("geocode_cache")`. -/
def geo_cleanup (now : Int) (st : List GeoRow) : List GeoRow :=
  cleanup_cache GeoRow.address_hash GeoRow.created GeoRow.expires now st

/-- The cache read `SELECT lon, lat FROM geocode_cache WHERE
address_hash=? AND expires > ?`. -/
def geocode_cache_lookup (st : List GeoRow) (h : String) (now : Int) :
    Option GeoRow :=
  st.find? (fun r => r.address_hash = h ∧ now < r.expires)

/-- `INSERT OR REPLACE INTO geocode_cache` keyed on the primary-key
column `address_hash`. -/
def insert_or_replace (st : List GeoRow) (row : GeoRow) : List GeoRow :=
  if st.any (fun r => r.address_hash = row.address_hash) then
    st.map (fun r => if r.address_hash = row.address_hash then row else r)
  else st ++ [row]

/-- `openroute_service.geocode_address` (lines 150–197).  The two
providers are explicit inputs: `photon` is the result of
`photon_geocode(address)` and `ors` the coordinates extracted from
`ors_client.pelias_search`, each `none` when the provider has no result.
Returns the call's outcome together with the post-call table state (each
SQL statement commits on its own connection, so the cleanup persists even
when the call then fails). -/
def geocode_address (photon ors : Option (ℚ × ℚ)) (now : Int)
    (st : List GeoRow) (address : String) :
    Except String (ℚ × ℚ) × List GeoRow :=
  let addr := pyStrip address
  if addr.length < 3 then (.error "Address too short", st)
  else
    let addr_hash := md5_hex (pyLower addr)
    match geocode_cache_lookup st addr_hash now with
    | some r => (.ok (r.lon, r.lat), st)
    | none =>
        let st1 := geo_cleanup now st
        match photon with
        | some c =>
            (.ok c, insert_or_replace st1 ⟨addr_hash, addr, c.1, c.2, now + CACHE_TTL, now⟩)
        | none =>
            match ors with
            | some c =>
                (.ok c, insert_or_replace st1 ⟨addr_hash, addr, c.1, c.2, now + CACHE_TTL, now⟩)
            | none => (.error "Geocoding failed: No geocoding results", st1)

/-! ### Geo-temporal filter construction (`qdrant_service.py`)

The filter AST mirrors the subset of `qdrant_client.http.models` the
sources build; evaluation follows Qdrant's documented semantics — every
`must` condition holds, `DatetimeRange` bounds are non-strict, and the
`GeoPolygon` membership test is the index's own point-in-polygon
predicate, taken as a parameter `inPoly`.  Datetimes are modelled as
integers (any order-isomorphic timestamp representation). -/

structure DatetimeRange where
  lte : Option Int := none
  gte : Option Int := none
  deriving DecidableEq, Repr

structure GeoPoint where
  lon : ℚ
  lat : ℚ
  deriving DecidableEq, Repr

inductive FieldCondition where
  | range (key : String) (r : DatetimeRange)
  | geoPolygon (key : String) (exterior : List GeoPoint)
  deriving DecidableEq, Repr

structure Filter where
  must : List FieldCondition
  deriving DecidableEq, Repr

/-- `qdrant_service.build_geo_filter`. -/
def build_geo_filter (polygon : List GeoPoint) : Filter :=
  ⟨[.geoPolygon "location" polygon]⟩

/-- `qdrant_service.build_date_intersection_filter`: `start_date` must be
`lte` the window end, `end_date` must be `gte` the window start. -/
def build_date_intersection_filter (start_date end_date : Int) : Filter :=
  ⟨[.range "start_date" { lte := some end_date },
    .range "end_date" { gte := some start_date }]⟩

/-- `qdrant_service.build_final_filter`: concatenate the `must` lists. -/
def build_final_filter (geo date : Filter) : Filter :=
  ⟨geo.must ++ date.must⟩

/-- The payload fields of an indexed event the filters inspect. -/
structure EventPayload where
  start_date : Int
  end_date : Int
  location : GeoPoint
  deriving DecidableEq, Repr

def payloadField (ev : EventPayload) (key : String) : Option Int :=
  if key = "start_date" then some ev.start_date
  else if key = "end_date" then some ev.end_date
  else none

def evalRange (r : DatetimeRange) (v : Int) : Bool :=
  (match r.lte with | some b => decide (v ≤ b) | none => true) &&
  (match r.gte with | some b => decide (b ≤ v) | none => true)

/-- Qdrant evaluation of one condition against a payload; `inPoly` is the
index's point-in-polygon test. -/
def evalCond (inPoly : List GeoPoint → GeoPoint → Bool) (ev : EventPayload) :
    FieldCondition → Bool
  | .range key r =>
      match payloadField ev key with
      | some v => evalRange r v
      | none => false
  | .geoPolygon _ exterior => inPoly exterior ev.location

/-- Qdrant evaluation of a filter: all `must` conditions hold. -/
def evalFilter (inPoly : List GeoPoint → GeoPoint → Bool) (f : Filter)
    (ev : EventPayload) : Bool :=
  f.must.all (evalCond inPoly ev)

/-! ### `create_event_map` post-processing (`routes.py`)

The shapely operations (`LineString.project`, `Point.distance`, the
planar buffer and the CRS reprojections) are external geometry kernels;
they enter the embedding as explicit function parameters, exactly as the
route and geocoding providers do. -/

structure Loc where
  lon : ℚ
  lat : ℚ
  deriving DecidableEq, Repr

/-- A fused query result as consumed by the sorting step: its payload's
`location` plus an opaque remainder. -/
structure QEvent where
  location : Loc
  name : String
  deriving DecidableEq, Repr

/-- The `distance_logic` closure of `create_event_map` (lines 141–148):
with a destination present, the event point's arc-length projection onto
the route line (`base_geometry.project`); otherwise its straight-line
distance from the origin point (`origin_point_sh.distance`). -/
def distance_logic (destGiven : Bool) (project : Loc → ℚ)
    (distFromOrigin : Loc → ℚ) (e : QEvent) : ℚ :=
  match destGiven with
  | true => project e.location
  | false => distFromOrigin e.location

/-- `sorted(payloads, key=distance_logic)` — Python's stable sort,
modelled by the (equally stable) insertion sort. -/
def sort_events (destGiven : Bool) (project : Loc → ℚ)
    (distFromOrigin : Loc → ℚ) (payloads : List QEvent) : List QEvent :=
  payloads.insertionSort (fun a b =>
    distance_logic destGiven project distFromOrigin a ≤
      distance_logic destGiven project distFromOrigin b)

/-- A single polygon as produced by the buffering step, carrying its
exterior ring and its area. -/
structure Poly2 where
  exterior : List (ℚ × ℚ)
  area : ℚ
  deriving DecidableEq, Repr

/-- A (possibly multi-part) buffered shape. -/
inductive BufShape where
  | polygon (p : Poly2)
  | multiPolygon (parts : List Poly2)
  deriving DecidableEq, Repr

/-- The corridor-polygon construction of `create_event_map` (lines
109–118): reproject the base geometry to EPSG:3857 (`toMercator`), buffer
by `buffer_distance * 1000` metres (`buffer`), reproject the result to
EPSG:4326 (`toGeographic`), then read `buffer_polygon.exterior` — an
access that only exists on a single polygon, so a multi-part shape raises
an `AttributeError` instead of being reduced. -/
def corridor_polygon {α : Type} (toMercator : α → α)
    (buffer : α → ℚ → BufShape) (toGeographic : BufShape → BufShape)
    (base : α) (buffer_km : ℚ) : Except String Poly2 :=
  match toGeographic (buffer (toMercator base) (buffer_km * 1000)) with
  | .polygon p => .ok p
  | .multiPolygon _ =>
      .error "AttributeError: MultiPolygon has no attribute exterior"

/-- The largest-area part of a multi-part shape. -/
def largestPart (parts : List Poly2) : Option Poly2 :=
  parts.foldl (fun acc p =>
    match acc with
    | none => some p
    | some q => if q.area < p.area then some p else some q) none

/-- The corridor construction as the claim words it: same buffering
pipeline, but a multi-part buffer result keeps only its largest-area
part.  Stated from the spec for comparison with `corridor_polygon`. -/
def corridor_polygon_claim {α : Type} (toMercator : α → α)
    (buffer : α → ℚ → BufShape) (toGeographic : BufShape → BufShape)
    (base : α) (buffer_km : ℚ) : Except String Poly2 :=
  match toGeographic (buffer (toMercator base) (buffer_km * 1000)) with
  | .polygon p => .ok p
  | .multiPolygon parts =>
      match largestPart parts with
      | some p => .ok p
      | none => .error "empty MultiPolygon"

/-! ### Tabular CSV delta model (`csv_delta_service.compute_csv_delta`)

A parsed CSV is a header row plus string-valued data rows
(`pd.read_csv(..., dtype=str).fillna("")`).  Keys are compared by value
(`Index.difference` / `Index.intersection` return the distinct keys of
one side absent from / present in the other); the audit rows carry the
`old_`/`new_`-prefixed non-key field families. -/

structure Csv where
  header : List String
  rows : List (List String)
  deriving DecidableEq, Repr

/-- Value of column `c` in a row (missing columns read as `""`). -/
def colValue (header row : List String) (c : String) : String :=
  match header.findIdx? (fun x => x = c) with
  | some i => row.getD i ""
  | none => ""

/-- The key of a row: its values at the key columns. -/
def rowKey (header : List String) (keys : List String) (row : List String) :
    List String :=
  keys.map (colValue header row)

structure CsvSummary where
  added : Nat
  removed : Nat
  changed : Nat
  total : Nat
  deriving DecidableEq, Repr

/-- A delta row: the key values, the tag, and the prefixed field
families. -/
structure DeltaRow where
  key : List String
  delta_type : String
  fields : List (String × String)
  deriving DecidableEq, Repr

structure CsvDeltaResult where
  delta : List DeltaRow
  summary : CsvSummary
  deriving DecidableEq, Repr

/-- The `old_`/`new_`-prefixed non-key fields of a row (`prefix_df`). -/
def prefixFields (pre : String) (header : List String) (keys : List String)
    (row : List String) : List (String × String) :=
  (header.filter (fun c => ¬ keys.contains c)).map
    (fun c => (pre ++ c, colValue header row c))

/-- `csv_delta_service.compute_csv_delta` (lines 44–127), for key columns
that identify rows: classify keys into added (present only in the new
file), removed (present only in the old file) and changed (present in
both with some differing non-key column over the union of columns,
missing values reading as `""`), and build the delta table from the
corresponding rows.  A key column missing from either file fails loudly
(`HTTPException` ⇒ `Except.error`). -/
def compute_csv_delta (old new : Csv) (keys : List String) :
    Except String CsvDeltaResult :=
  if keys.all (fun k => old.header.contains k && new.header.contains k) then
    let oldKeys := old.rows.map (rowKey old.header keys)
    let newKeys := new.rows.map (rowKey new.header keys)
    let added_keys := (newKeys.filter (fun k => ¬ oldKeys.contains k)).dedup
    let removed_keys := (oldKeys.filter (fun k => ¬ newKeys.contains k)).dedup
    let common_keys := (oldKeys.filter (fun k => newKeys.contains k)).dedup
    let all_cols := (old.header ++ new.header).dedup
    let non_key_cols := all_cols.filter (fun c => ¬ keys.contains c)
    let rowsDiffer := fun (orow nrow : List String) =>
      non_key_cols.any (fun c =>
        colValue old.header orow c ≠ colValue new.header nrow c)
    let oldRowOf := fun k => old.rows.find? (fun r => rowKey old.header keys r = k)
    let newRowOf := fun k => new.rows.find? (fun r => rowKey new.header keys r = k)
    let changed_keys := common_keys.filter (fun k =>
      match oldRowOf k, newRowOf k with
      | some orow, some nrow => rowsDiffer orow nrow
      | _, _ => false)
    let addedRows := added_keys.filterMap (fun k =>
      (newRowOf k).map (fun r =>
        DeltaRow.mk k "added" (prefixFields "new_" new.header keys r)))
    let removedRows := removed_keys.filterMap (fun k =>
      (oldRowOf k).map (fun r =>
        DeltaRow.mk k "removed" (prefixFields "old_" old.header keys r)))
    let changedRows := changed_keys.filterMap (fun k =>
      match oldRowOf k, newRowOf k with
      | some orow, some nrow =>
          some (DeltaRow.mk k "changed"
            (prefixFields "old_" old.header keys orow ++
             prefixFields "new_" new.header keys nrow))
      | _, _ => none)
    let delta := addedRows ++ removedRows ++ changedRows
    .ok ⟨delta,
      ⟨added_keys.length, removed_keys.length, changed_keys.length,
        delta.length⟩⟩
  else .error "Key not in both files"

/-! ### Helper lemmas -/

theorem scroll_replace_first_self (idx : Index) (eid : String) (np : Pnt)
    (h : (scroll_by_event_id idx eid).isSome) (hnp : np.payload_id = eid) :
    scroll_by_event_id (replace_first idx eid np) eid = some np := by
  induction idx with
  | nil => simp [scroll_by_event_id] at h
  | cons p rest ih =>
      by_cases hp : p.payload_id = eid
      · simp [replace_first, hp, scroll_by_event_id, List.find?, hnp]
      · simp only [replace_first, hp, if_false]
        simp only [scroll_by_event_id, List.find?, decide_eq_true_eq] at h ⊢
        simp only [hp, decide_false_eq_false] at h ⊢
        exact ih h

theorem scroll_replace_first_other (idx : Index) (eid k : String) (np : Pnt)
    (hk : k ≠ eid) (hnp : np.payload_id = eid) :
    scroll_by_event_id (replace_first idx eid np) k =
      scroll_by_event_id idx k := by
  induction idx with
  | nil => rfl
  | cons p rest ih =>
      by_cases hp : p.payload_id = eid
      · have hek : ¬ eid = k := fun h => hk h.symm
        simp [replace_first, hp, scroll_by_event_id, List.find?, hnp, hek]
      · simp only [replace_first, hp, if_false]
        simp only [scroll_by_event_id, List.find?] at ih ⊢
        cases hd : decide (p.payload_id = k) <;> simp [hd, ih]

/-! ### Claim C1 — code bug witness

The dedup decision in `ingest_events_from_file` hashes only
`normalize_text(event.get("description", ""))`, whereas
`generate_content_hash` (whose docstring says it "matches the logic in
ingest_service") digests title, description, start and end.  A record
whose title changes while its description stays put therefore keeps its
stored hash and is counted `skipped_unchanged`, not updated. -/

def c1_stored : Event :=
  { id := "e1", title := "A", description := "d",
    start_date := "2025-01-01", end_date := "2025-01-02" }

def c1_retitled : Event := { c1_stored with title := "B" }

def c1_index : Index := [⟨"p1", "e1", ingest_chunk_hash c1_stored⟩]

/-- Claim C1, failing input: with the index holding `c1_stored` (title
"A"), re-ingesting the same event retitled "B" is counted
`skipped_unchanged` (0 updated) — the dedup hash covers only the
description — even though the four-field content hash of the two records
differs, so the claim's "a change to any one of those four fields
produces a different hash (the record is then updated, not skipped)" is
violated by the code. -/
theorem ingest_hash_ignores_title_change :
    (run_ingest (fun _ => "u") [c1_retitled] c1_index 0).1 =
      ⟨0, 0, 1⟩ ∧
    generate_content_hash c1_stored ≠ generate_content_hash c1_retitled ∧
    ingest_chunk_hash c1_stored = ingest_chunk_hash c1_retitled := by
  refine ⟨by decide, by decide, by decide⟩

/-! ### Claim C2 — the physical id is drawn from `uuid4`, not derived -/

def c2_event : Event :=
  { id := "k1", title := "t", description := "d",
    start_date := "2025-01-01", end_date := "2025-01-01" }

/-- Claim C2, counterexample: ingesting the same natural key `"k1"` into
an empty index in two runs whose `uuid4` draws differ stores the record
under two different physical ids (`"uuidA"` vs `"uuidB"`), so the
physical id is not a deterministic function of the natural key. -/
theorem physical_id_not_deterministic :
    (scroll_by_event_id
        (run_ingest (fun _ => "uuidA") [c2_event] [] 0).2.1 "k1").map Pnt.pid =
      some "uuidA" ∧
    (scroll_by_event_id
        (run_ingest (fun _ => "uuidB") [c2_event] [] 0).2.1 "k1").map Pnt.pid =
      some "uuidB" ∧
    ("uuidA" : String) ≠ "uuidB" := by
  refine ⟨by decide, by decide, by decide⟩

/-- Claim C2 (amended): the physical id of a freshly inserted record is a
random `uuid4`, not a derivation from the natural key; but once a point
exists for the natural key, every later ingestion of that key reuses the
stored point id — the id is never regenerated while the event is present,
and an unchanged content hash leaves the index untouched. -/
theorem physical_id_reused_when_present (fresh : Nat → String) (idx : Index)
    (n : Nat) (e : Event) (p : Pnt) (hid : e.id ≠ "")
    (h : scroll_by_event_id idx e.id = some p) :
    (scroll_by_event_id (ingest_event fresh idx n e).2.1 e.id).map Pnt.pid =
      some p.pid ∧
    (p.hash = ingest_chunk_hash e → (ingest_event fresh idx n e).2.1 = idx) := by
  have hb : ingest_event fresh idx n e =
      (if p.hash = ingest_chunk_hash e then (.skippedUnchanged, idx, n)
       else (.updatedExisting,
         replace_first idx e.id ⟨p.pid, e.id, ingest_chunk_hash e⟩, n)) := by
    unfold ingest_event
    rw [if_neg hid, h]
  rw [hb]
  by_cases hh : p.hash = ingest_chunk_hash e
  · rw [if_pos hh]
    exact ⟨by rw [h]; rfl, fun _ => rfl⟩
  · rw [if_neg hh]
    refine ⟨?_, fun hc => absurd hc hh⟩
    rw [scroll_replace_first_self idx e.id _ (by rw [h]; rfl) rfl]
    rfl

/-- Witness for `physical_id_reused_when_present` at a concrete stored
point. -/
theorem physical_id_reused_when_present_witness :
    (c2_event.id ≠ "" ∧
      scroll_by_event_id [⟨"pX", "k1", "zz"⟩] c2_event.id =
        some ⟨"pX", "k1", "zz"⟩) ∧
    ((scroll_by_event_id
        (ingest_event (fun _ => "u") [⟨"pX", "k1", "zz"⟩] 0 c2_event).2.1
        c2_event.id).map Pnt.pid = some "pX" ∧
      ((⟨"pX", "k1", "zz"⟩ : Pnt).hash = ingest_chunk_hash c2_event →
        (ingest_event (fun _ => "u") [⟨"pX", "k1", "zz"⟩] 0 c2_event).2.1 =
          [⟨"pX", "k1", "zz"⟩])) :=
  ⟨⟨by decide, by decide⟩,
    physical_id_reused_when_present (fun _ => "u") [⟨"pX", "k1", "zz"⟩] 0
      c2_event ⟨"pX", "k1", "zz"⟩ (by decide) (by decide)⟩

/-! ### Claim C5 — date-window intersection filter -/

/-- Claim C5: the temporal filter built by
`build_date_intersection_filter` holds exactly when the event's interval
overlaps the window — `start_date ≤ windowEnd` and `end_date ≥
windowStart`, both non-strict — and the combined filter of
`build_final_filter` is the conjunction with the other (spatial)
criteria, so a non-overlapping event is excluded however well it matches
the rest. -/
theorem date_intersection_filter_overlap
    (inPoly : List GeoPoint → GeoPoint → Bool) (ws we : Int)
    (ev : EventPayload) (g : Filter) :
    (evalFilter inPoly (build_date_intersection_filter ws we) ev = true ↔
      (ev.start_date ≤ we ∧ ws ≤ ev.end_date)) ∧
    evalFilter inPoly (build_final_filter g (build_date_intersection_filter ws we)) ev =
      (evalFilter inPoly g ev &&
        evalFilter inPoly (build_date_intersection_filter ws we) ev) := by
  constructor
  · simp [evalFilter, build_date_intersection_filter, evalCond, payloadField,
      evalRange]
  · simp [evalFilter, build_final_filter, List.all_append]

/-! ### Claim C9 — no largest-part selection exists in the corridor code -/

def c9_small : Poly2 := ⟨[(0, 0), (1, 0), (0, 1)], 1⟩

def c9_big : Poly2 := ⟨[(0, 0), (2, 0), (0, 2)], 2⟩

/-- Claim C9, counterexample: on a buffering outcome with two parts the
code (`corridor_polygon`) raises instead of keeping the largest-area
part, diverging from the claim's construction
(`corridor_polygon_claim`), which returns the larger part. -/
theorem corridor_polygon_multi_not_reduced :
    corridor_polygon (fun u : Unit => u)
        (fun _ _ => BufShape.multiPolygon [c9_small, c9_big]) id () 5 =
      .error "AttributeError: MultiPolygon has no attribute exterior" ∧
    corridor_polygon_claim (fun u : Unit => u)
        (fun _ _ => BufShape.multiPolygon [c9_small, c9_big]) id () 5 =
      .ok c9_big ∧
    corridor_polygon (fun u : Unit => u)
        (fun _ _ => BufShape.multiPolygon [c9_small, c9_big]) id () 5 ≠
      corridor_polygon_claim (fun u : Unit => u)
        (fun _ _ => BufShape.multiPolygon [c9_small, c9_big]) id () 5 := by
  have h1 : corridor_polygon (fun u : Unit => u)
      (fun _ _ => BufShape.multiPolygon [c9_small, c9_big]) id () 5 =
      .error "AttributeError: MultiPolygon has no attribute exterior" := rfl
  have h2 : corridor_polygon_claim (fun u : Unit => u)
      (fun _ _ => BufShape.multiPolygon [c9_small, c9_big]) id () 5 =
      .ok c9_big := by
    unfold corridor_polygon_claim largestPart
    norm_num [c9_small, c9_big]
  refine ⟨h1, h2, ?_⟩
  rw [h1, h2]
  intro h
  exact Except.noConfusion h

/-- Claim C9 (amended): the corridor polygon is exactly the result of
buffering the route geometry in the planar EPSG:3857 projection by
`buffer_km * 1000` metres and reprojecting to EPSG:4326, provided that
pipeline yields a single-part polygon; the code performs no largest-part
selection, and a multi-part result raises instead of being reduced. -/
theorem corridor_polygon_spec {α : Type} (toMercator : α → α)
    (buffer : α → ℚ → BufShape) (toGeographic : BufShape → BufShape)
    (base : α) (buffer_km : ℚ) (p : Poly2) :
    (corridor_polygon toMercator buffer toGeographic base buffer_km = .ok p ↔
      toGeographic (buffer (toMercator base) (buffer_km * 1000)) =
        .polygon p) ∧
    (∀ parts,
      toGeographic (buffer (toMercator base) (buffer_km * 1000)) =
          .multiPolygon parts →
      corridor_polygon toMercator buffer toGeographic base buffer_km =
        .error "AttributeError: MultiPolygon has no attribute exterior") := by
  constructor
  · unfold corridor_polygon
    cases hsh : toGeographic (buffer (toMercator base) (buffer_km * 1000)) with
    | polygon q => simp
    | multiPolygon parts => simp
  · intro parts hsh
    unfold corridor_polygon
    rw [hsh]

/-- Witness for `corridor_polygon_spec` at a concrete single-part
buffering outcome. -/
theorem corridor_polygon_spec_witness :
    (corridor_polygon (fun u : Unit => u) (fun _ _ => BufShape.polygon c9_big)
        id () 5 = .ok c9_big ↔
      id (BufShape.polygon c9_big) = .polygon c9_big) ∧
    (∀ parts, id (BufShape.polygon c9_big) = .multiPolygon parts →
      corridor_polygon (fun u : Unit => u)
        (fun _ _ => BufShape.polygon c9_big) id () 5 =
        .error "AttributeError: MultiPolygon has no attribute exterior") :=
  corridor_polygon_spec (fun u : Unit => u)
    (fun _ _ => BufShape.polygon c9_big) id () 5 c9_big

/-! ### Claim C6 — re-sort of the fused result set -/

/-- Claim C6: for every fused result set, the events returned by
`create_event_map` are `sorted(payloads, key=distance_logic)` — in route
mode (destination given) ascending by the arc-length projection of the
event point onto the route line, in point mode ascending by straight-line
distance from the origin — and the sorted list is a permutation of the
fused set, so the order the index returned is irrelevant. -/
theorem fused_results_sorted_by_progress_or_distance
    (project distFromOrigin : Loc → ℚ) (payloads : List QEvent) :
    (List.Sorted (fun a b => project a.location ≤ project b.location)
        (sort_events true project distFromOrigin payloads) ∧
      List.Perm (sort_events true project distFromOrigin payloads) payloads) ∧
    (List.Sorted
        (fun a b => distFromOrigin a.location ≤ distFromOrigin b.location)
        (sort_events false project distFromOrigin payloads) ∧
      List.Perm (sort_events false project distFromOrigin payloads)
        payloads) := by
  have htot : ∀ k : QEvent → ℚ, IsTotal QEvent (fun a b => k a ≤ k b) :=
    fun k => ⟨fun a b => le_total (k a) (k b)⟩
  have htrans : ∀ k : QEvent → ℚ, IsTrans QEvent (fun a b => k a ≤ k b) :=
    fun k => ⟨fun a b c hab hbc => le_trans hab hbc⟩
  constructor
  · constructor
    · haveI := htot (fun e => distance_logic true project distFromOrigin e)
      haveI := htrans (fun e => distance_logic true project distFromOrigin e)
      have := List.sorted_insertionSort
        (fun a b : QEvent => distance_logic true project distFromOrigin a ≤
          distance_logic true project distFromOrigin b) payloads
      exact this
    · exact List.perm_insertionSort _ payloads
  · constructor
    · haveI := htot (fun e => distance_logic false project distFromOrigin e)
      haveI := htrans (fun e => distance_logic false project distFromOrigin e)
      have := List.sorted_insertionSort
        (fun a b : QEvent => distance_logic false project distFromOrigin a ≤
          distance_logic false project distFromOrigin b) payloads
      exact this
    · exact List.perm_insertionSort _ payloads

/-! ### Claim C7 — cache cleanup: purge expired, then evict oldest -/

theorem filter_not_any_self {α : Type} (key : α → String) (t : List α) :
    t.filter (fun r => ¬ t.any (fun v => key v = key r)) = [] := by
  rw [List.filter_eq_nil_iff]
  intro a ha
  simp only [decide_eq_true_eq, Decidable.not_not]
  exact List.any_eq_true.mpr ⟨a, ha, by simp⟩

theorem filter_not_any_of_disjoint {α : Type} (key : α → String)
    (t d : List α) (hdisj : ∀ a ∈ d, ∀ v ∈ t, key v ≠ key a) :
    d.filter (fun r => ¬ t.any (fun v => key v = key r)) = d := by
  rw [List.filter_eq_self]
  intro a ha
  simp only [decide_eq_true_eq, List.any_eq_true, not_exists]
  intro v
  rintro ⟨hv, hkv⟩
  exact hdisj a ha v hv hkv

theorem cleanup_evict_spec {α : Type} (key : α → String) (created : α → Int)
    (survivors : List α) (hkeys : (survivors.map key).Nodup)
    (hbig : MAX_CACHE_SIZE ≤ survivors.length) :
    (cleanup_evict key created survivors).length = MAX_CACHE_SIZE / 2 ∧
    (∀ x ∈ cleanup_evict key created survivors, x ∈ survivors) ∧
    (∀ r ∈ survivors, r ∉ cleanup_evict key created survivors →
      ∀ s ∈ cleanup_evict key created survivors, created r ≤ created s) := by
  haveI : IsTotal α (fun a b => created a ≤ created b) :=
    ⟨fun a b => le_total (created a) (created b)⟩
  haveI : IsTrans α (fun a b => created a ≤ created b) :=
    ⟨fun a b c hab hbc => le_trans hab hbc⟩
  set excess := survivors.length - MAX_CACHE_SIZE / 2 with hexcess
  set sorted := survivors.insertionSort (fun a b => created a ≤ created b)
    with hsorted_def
  have hperm : List.Perm sorted survivors :=
    List.perm_insertionSort _ survivors
  have hres : cleanup_evict key created survivors =
      survivors.filter
        (fun r => ¬ (sorted.take excess).any (fun v => key v = key r)) := rfl
  set victims := sorted.take excess with hvict
  have hkeysSorted : (sorted.map key).Nodup :=
    ((hperm.map key).nodup_iff).mpr hkeys
  have htd : victims ++ sorted.drop excess = sorted := by
    rw [hvict]; exact List.take_append_drop excess sorted
  have hdisj : ∀ a ∈ sorted.drop excess, ∀ v ∈ victims,
      key v ≠ key a := by
    intro a ha v hv
    rw [← htd, List.map_append, List.nodup_append] at hkeysSorted
    intro hkv
    exact hkeysSorted.2.2 (List.mem_map_of_mem key hv)
      (hkv ▸ List.mem_map_of_mem key ha)
  have hfd := filter_not_any_of_disjoint key victims (sorted.drop excess) hdisj
  have hsplit : sorted.filter
      (fun r => ¬ victims.any (fun v => key v = key r)) =
      sorted.drop excess := by
    conv_lhs => rw [← htd]
    rw [List.filter_append, filter_not_any_self, hfd, List.nil_append]
  have hpermres : List.Perm (cleanup_evict key created survivors)
      (sorted.drop excess) := by
    rw [hres, ← hsplit]
    exact (hperm.filter _).symm
  have hM2 : MAX_CACHE_SIZE / 2 ≤ MAX_CACHE_SIZE := Nat.div_le_self _ _
  have hlen : (cleanup_evict key created survivors).length =
      MAX_CACHE_SIZE / 2 := by
    rw [hpermres.length_eq, List.length_drop, hperm.length_eq]
    omega
  have hsub : ∀ x ∈ cleanup_evict key created survivors, x ∈ survivors := by
    intro x hx
    rw [hres] at hx
    exact List.mem_of_mem_filter hx
  refine ⟨hlen, hsub, ?_⟩
  have hsort : List.Sorted (fun a b => created a ≤ created b) sorted :=
    List.sorted_insertionSort _ _
  have hcross : ∀ x ∈ victims, ∀ y ∈ sorted.drop excess,
      created x ≤ created y := by
    rw [← htd] at hsort
    exact fun x hx y hy => (List.pairwise_append.mp hsort).2.2 x hx y hy
  intro r hr hnot s hs
  have hs' : s ∈ sorted.drop excess := (hpermres.mem_iff).mp hs
  have hrs : r ∈ sorted := hperm.mem_iff.mpr hr
  rw [← htd, List.mem_append] at hrs
  rcases hrs with hrt | hrd
  · exact hcross r hrt s hs'
  · exfalso
    apply hnot
    rw [hres]
    exact List.mem_filter.mpr ⟨hr, (List.filter_eq_self.mp hfd) r hrd⟩

/-- Claim C7: the cleanup run before every cache write first deletes every
row whose expiry has passed (`expires ≤ now`); if the count of surviving
unexpired rows has reached `MAX_CACHE_SIZE` (20000), it removes surviving
rows oldest-created-first until exactly half the ceiling remain (every
evicted survivor was created no later than every kept one); if the
ceiling was not reached, the survivors are returned untouched. -/
theorem cleanup_cache_purges_then_evicts_oldest {α : Type}
    (key : α → String) (created expires : α → Int) (now : Int)
    (rows : List α) (hkeys : (rows.map key).Nodup) :
    (∀ r ∈ rows, expires r ≤ now →
      r ∉ cleanup_cache key created expires now rows) ∧
    ((rows.filter (fun r => now < expires r)).length < MAX_CACHE_SIZE →
      cleanup_cache key created expires now rows =
        rows.filter (fun r => now < expires r)) ∧
    (MAX_CACHE_SIZE ≤ (rows.filter (fun r => now < expires r)).length →
      (cleanup_cache key created expires now rows).length =
        MAX_CACHE_SIZE / 2 ∧
      (∀ r ∈ rows.filter (fun r => now < expires r),
        r ∉ cleanup_cache key created expires now rows →
        ∀ s ∈ cleanup_cache key created expires now rows,
          created r ≤ created s)) := by
  have hsurvkeys : ((rows.filter (fun r => now < expires r)).map key).Nodup :=
    List.Nodup.sublist (List.Sublist.map key (List.filter_sublist rows)) hkeys
  by_cases hbig :
      MAX_CACHE_SIZE ≤ (rows.filter (fun r => now < expires r)).length
  case neg =>
    have hres : cleanup_cache key created expires now rows =
        rows.filter (fun r => now < expires r) := by
      unfold cleanup_cache
      rw [if_neg hbig]
    refine ⟨?_, fun _ => hres, fun h => absurd h hbig⟩
    intro r hr hexp hmem
    rw [hres, List.mem_filter] at hmem
    have := hmem.2
    simp only [decide_eq_true_eq] at this
    omega
  case pos =>
    have hres : cleanup_cache key created expires now rows =
        cleanup_evict key created (rows.filter (fun r => now < expires r)) := by
      unfold cleanup_cache
      rw [if_pos hbig]
    obtain ⟨hlen, hsub, horder⟩ :=
      cleanup_evict_spec key created (rows.filter (fun r => now < expires r))
        hsurvkeys hbig
    refine ⟨?_, fun h => absurd hbig (by omega), fun _ => ⟨?_, ?_⟩⟩
    · intro r hr hexp hmem
      rw [hres] at hmem
      have := (List.mem_filter.mp (hsub r hmem)).2
      simp only [decide_eq_true_eq] at this
      omega
    · rw [hres]; exact hlen
    · intro r hr hnot s hs
      rw [hres] at hnot hs
      exact horder r hr hnot s hs

def c7_row1 : GeoRow := ⟨"h1", "a", 0, 0, 10, 1⟩

def c7_row2 : GeoRow := ⟨"h2", "b", 0, 0, -5, 2⟩

/-- Witness for `cleanup_cache_purges_then_evicts_oldest` on a concrete
two-row table with one expired row. -/
theorem cleanup_cache_purges_then_evicts_oldest_witness :
    (([c7_row1, c7_row2].map GeoRow.address_hash).Nodup) ∧
    ((∀ r ∈ [c7_row1, c7_row2], r.expires ≤ 0 →
      r ∉ cleanup_cache GeoRow.address_hash GeoRow.created GeoRow.expires 0
          [c7_row1, c7_row2]) ∧
    (([c7_row1, c7_row2].filter (fun r => 0 < r.expires)).length <
        MAX_CACHE_SIZE →
      cleanup_cache GeoRow.address_hash GeoRow.created GeoRow.expires 0
          [c7_row1, c7_row2] =
        [c7_row1, c7_row2].filter (fun r => 0 < r.expires)) ∧
    (MAX_CACHE_SIZE ≤
        ([c7_row1, c7_row2].filter (fun r => 0 < r.expires)).length →
      (cleanup_cache GeoRow.address_hash GeoRow.created GeoRow.expires 0
          [c7_row1, c7_row2]).length = MAX_CACHE_SIZE / 2 ∧
      (∀ r ∈ [c7_row1, c7_row2].filter (fun r => 0 < r.expires),
        r ∉ cleanup_cache GeoRow.address_hash GeoRow.created GeoRow.expires 0
            [c7_row1, c7_row2] →
        ∀ s ∈ cleanup_cache GeoRow.address_hash GeoRow.created GeoRow.expires 0
            [c7_row1, c7_row2],
          r.created ≤ s.created))) :=
  ⟨by decide,
    cleanup_cache_purges_then_evicts_oldest GeoRow.address_hash GeoRow.created
      GeoRow.expires 0 [c7_row1, c7_row2] (by decide)⟩

/-! ### Claim C8 — a failed geocode stores nothing -/

theorem cleanup_cache_subset {α : Type} (key : α → String)
    (created expires : α → Int) (now : Int) (rows : List α) :
    ∀ x ∈ cleanup_cache key created expires now rows,
      x ∈ rows.filter (fun r => now < expires r) := by
  intro x hx
  unfold cleanup_cache at hx
  by_cases hbig :
      MAX_CACHE_SIZE ≤ (rows.filter (fun r => now < expires r)).length
  · rw [if_pos hbig] at hx
    unfold cleanup_evict at hx
    exact List.mem_of_mem_filter hx
  · rw [if_neg hbig] at hx
    exact hx

theorem cleanup_cache_sublist {α : Type} (key : α → String)
    (created expires : α → Int) (now : Int) (rows : List α) :
    List.Sublist (cleanup_cache key created expires now rows) rows := by
  unfold cleanup_cache
  by_cases hbig :
      MAX_CACHE_SIZE ≤ (rows.filter (fun r => now < expires r)).length
  · rw [if_pos hbig]
    unfold cleanup_evict
    exact List.Sublist.trans (List.filter_sublist _) (List.filter_sublist _)
  · rw [if_neg hbig]
    exact List.filter_sublist _

/-- Claim C8: when both geocoding providers return no result,
`geocode_address` raises the descriptive "Geocoding failed" error; the
post-call table is just the cleanup of the previous one (a sublist — rows
are only ever removed, and none carries the address's hash), so a
subsequent call for the same address finds no cached row and queries the
providers again: with the provider now answering `c`, it returns `ok c`
instead of a cached miss. -/
theorem geocode_no_result_not_cached (now now2 : Int) (st : List GeoRow)
    (address : String) (hlen : 3 ≤ (pyStrip address).length)
    (hmiss : geocode_cache_lookup st (md5_hex (pyLower (pyStrip address)))
      now = none) :
    (geocode_address none none now st address).1 =
      .error "Geocoding failed: No geocoding results" ∧
    (geocode_address none none now st address).2 = geo_cleanup now st ∧
    (∀ row ∈ (geocode_address none none now st address).2,
      row.address_hash ≠ md5_hex (pyLower (pyStrip address))) ∧
    List.Sublist (geocode_address none none now st address).2 st ∧
    (∀ c : ℚ × ℚ,
      (geocode_address (some c) none now2
          (geocode_address none none now st address).2 address).1 = .ok c) := by
  have hnotlt : ¬ (pyStrip address).length < 3 := by omega
  have hrun : geocode_address none none now st address =
      (.error "Geocoding failed: No geocoding results", geo_cleanup now st) := by
    unfold geocode_address
    rw [if_neg hnotlt]
    simp only [hmiss]
  have hnoh : ∀ row ∈ geo_cleanup now st,
      row.address_hash ≠ md5_hex (pyLower (pyStrip address)) := by
    intro row hrow heq
    have hsurv : row ∈ st.filter (fun r => now < r.expires) :=
      cleanup_cache_subset GeoRow.address_hash GeoRow.created GeoRow.expires
        now st row hrow
    rw [List.mem_filter] at hsurv
    have hfresh : now < row.expires := by
      have := hsurv.2
      simpa using this
    have := List.find?_eq_none.mp hmiss row hsurv.1
    simp only [decide_eq_true_eq, not_and] at this
    exact absurd hfresh (by simpa [heq] using this)
  refine ⟨by rw [hrun], by rw [hrun], ?_, ?_, ?_⟩
  · rw [hrun]
    exact hnoh
  · rw [hrun]
    exact cleanup_cache_sublist GeoRow.address_hash GeoRow.created
      GeoRow.expires now st
  · intro c
    have hmiss2 : geocode_cache_lookup (geo_cleanup now st)
        (md5_hex (pyLower (pyStrip address))) now2 = none := by
      apply List.find?_eq_none.mpr
      intro row hrow
      simp only [decide_eq_true_eq, not_and]
      intro heq
      exact absurd heq (hnoh row hrow)
    have hcall : (geocode_address (some c) none now2 (geo_cleanup now st)
        address).1 = .ok c := by
      unfold geocode_address
      rw [if_neg hnotlt]
      simp only [hmiss2]
    rw [hrun]
    exact hcall

/-- Witness for `geocode_no_result_not_cached` on an empty cache and the
address "abc". -/
theorem geocode_no_result_not_cached_witness :
    (3 ≤ (pyStrip "abc").length ∧
      geocode_cache_lookup [] (md5_hex (pyLower (pyStrip "abc"))) 0 = none) ∧
    ((geocode_address none none 0 [] "abc").1 =
      .error "Geocoding failed: No geocoding results" ∧
    (geocode_address none none 0 [] "abc").2 = geo_cleanup 0 [] ∧
    (∀ row ∈ (geocode_address none none 0 [] "abc").2,
      row.address_hash ≠ md5_hex (pyLower (pyStrip "abc"))) ∧
    List.Sublist (geocode_address none none 0 [] "abc").2 [] ∧
    (∀ c : ℚ × ℚ,
      (geocode_address (some c) none 1
          (geocode_address none none 0 [] "abc").2 "abc").1 = .ok c)) :=
  ⟨⟨by decide, by decide⟩,
    geocode_no_result_not_cached 0 1 [] "abc" (by decide) (by decide)⟩

/-! ### Claim C10 — tabular delta of identical snapshots is explicit zero -/

theorem filter_not_contains_self (l : List (List String)) :
    l.filter (fun k => ¬ l.contains k) = [] := by
  rw [List.filter_eq_nil_iff]
  intro a ha
  simp [List.contains, List.elem_eq_mem, ha]

/-- Claim C10: for any CSV given as both the old and the new input of
`compute_csv_delta` (with key columns present in both), the result is an
explicit `ok` value whose delta table is empty and whose summary is
`{added := 0, removed := 0, changed := 0, total := 0}`. -/
theorem csv_delta_identical (csv : Csv) (keys : List String)
    (hkeys : keys.all
      (fun k => csv.header.contains k && csv.header.contains k) = true) :
    compute_csv_delta csv csv keys = .ok ⟨[], ⟨0, 0, 0, 0⟩⟩ := by
  unfold compute_csv_delta
  rw [if_pos hkeys]
  have h1 : (csv.rows.map (rowKey csv.header keys)).filter
      (fun k => ¬ (csv.rows.map (rowKey csv.header keys)).contains k) = [] :=
    filter_not_contains_self _
  have h2 : ∀ (common : List (List String)),
      common.filter (fun k =>
        match csv.rows.find? (fun r => rowKey csv.header keys r = k),
          csv.rows.find? (fun r => rowKey csv.header keys r = k) with
        | some orow, some nrow =>
            ((csv.header ++ csv.header).dedup.filter
              (fun c => ¬ keys.contains c)).any (fun c =>
                colValue csv.header orow c ≠ colValue csv.header nrow c)
        | _, _ => false) = [] := by
    intro common
    rw [List.filter_eq_nil_iff]
    intro k hk
    cases hf : csv.rows.find? (fun r => rowKey csv.header keys r = k) with
    | none => simp
    | some row =>
        simp only [List.any_eq_true, not_exists]
        simp
  simp only [h1, h2, List.dedup_nil, List.filterMap_nil, List.nil_append,
    List.append_nil, List.length_nil]

def c10_csv : Csv := ⟨["event_id", "name"], [["1", "x"], ["2", "y"]]⟩

/-- Witness for `csv_delta_identical` on a concrete two-row CSV keyed by
`event_id`. -/
theorem csv_delta_identical_witness :
    (["event_id"].all
      (fun k => c10_csv.header.contains k && c10_csv.header.contains k) =
        true) ∧
    compute_csv_delta c10_csv c10_csv ["event_id"] = .ok ⟨[], ⟨0, 0, 0, 0⟩⟩ :=
  ⟨by decide, csv_delta_identical c10_csv ["event_id"] (by decide)⟩

/-! ### Claim C4 -- re-ingesting an identical snapshot skips everything -/

theorem scroll_append_single (idx : Index) (np : Pnt) (k : String)
    (hk : np.payload_id ≠ k) :
    scroll_by_event_id (idx ++ [np]) k = scroll_by_event_id idx k := by
  unfold scroll_by_event_id
  rw [List.find?_append]
  cases h : idx.find? (fun p => p.payload_id = k) with
  | some p => rfl
  | none => simp [List.find?, hk]

theorem ingest_event_scroll_other (fresh : Nat → String) (idx : Index)
    (n : Nat) (e : Event) (k : String) (hk : k ≠ e.id) :
    scroll_by_event_id (ingest_event fresh idx n e).2.1 k =
      scroll_by_event_id idx k := by
  unfold ingest_event
  by_cases hid : e.id = ""
  · rw [if_pos hid]
  · rw [if_neg hid]
    cases hscr : scroll_by_event_id idx e.id with
    | some p =>
        by_cases hh : p.hash = ingest_chunk_hash e
        · simp [hscr, hh]
        · simp only [hscr, if_neg hh]
          exact scroll_replace_first_other idx e.id k _ hk rfl
    | none =>
        simp only [hscr]
        exact scroll_append_single idx _ k (fun h => hk h.symm)

theorem ingest_event_scroll_self (fresh : Nat → String) (idx : Index)
    (n : Nat) (e : Event) (hid : e.id ≠ "") :
    ∃ p', scroll_by_event_id (ingest_event fresh idx n e).2.1 e.id =
      some p' ∧ p'.hash = ingest_chunk_hash e := by
  unfold ingest_event
  rw [if_neg hid]
  cases hscr : scroll_by_event_id idx e.id with
  | some p =>
      by_cases hh : p.hash = ingest_chunk_hash e
      · exact ⟨p, by simp [hscr, hh], hh⟩
      · refine ⟨⟨p.pid, e.id, ingest_chunk_hash e⟩, ?_, rfl⟩
        simp only [hscr, if_neg hh]
        exact scroll_replace_first_self idx e.id _ (by rw [hscr]; rfl) rfl
  | none =>
      refine ⟨⟨fresh n, e.id, ingest_chunk_hash e⟩, ?_, rfl⟩
      simp only [hscr]
      unfold scroll_by_event_id
      rw [List.find?_append]
      unfold scroll_by_event_id at hscr
      rw [hscr]
      simp [List.find?]

theorem run_ingest_scroll_other (fresh : Nat → String) (events : List Event)
    (idx : Index) (n : Nat) (k : String)
    (hall : ∀ e ∈ events, e.id ≠ k) :
    scroll_by_event_id (run_ingest fresh events idx n).2.1 k =
      scroll_by_event_id idx k := by
  induction events generalizing idx n with
  | nil => rfl
  | cons a rest ih =>
      simp only [run_ingest]
      rw [ih _ _ (fun e he => hall e (List.mem_cons_of_mem a he))]
      exact ingest_event_scroll_other fresh idx n a k
        (fun h => hall a (List.mem_cons_self a rest) h.symm)

theorem run_ingest_establishes (fresh : Nat → String) (events : List Event)
    (idx : Index) (n : Nat) (hids : ∀ e ∈ events, e.id ≠ "")
    (hnd : (events.map Event.id).Nodup) :
    ∀ e ∈ events, ∃ p',
      scroll_by_event_id (run_ingest fresh events idx n).2.1 e.id =
        some p' ∧ p'.hash = ingest_chunk_hash e := by
  induction events generalizing idx n with
  | nil => intro e he; cases he
  | cons a rest ih =>
      intro e he
      rw [List.map_cons, List.nodup_cons] at hnd
      rcases List.mem_cons.mp he with rfl | hrest
      · obtain ⟨p', hscr, hh⟩ :=
          ingest_event_scroll_self fresh idx n e (hids e (List.mem_cons_self e rest))
        refine ⟨p', ?_, hh⟩
        simp only [run_ingest]
        rw [run_ingest_scroll_other fresh rest _ _ e.id ?hother]
        · exact hscr
        case hother =>
          intro e' he' heq
          exact hnd.1 (heq ▸ List.mem_map_of_mem Event.id he')
      · exact ih _ _ (fun x hx => hids x (List.mem_cons_of_mem a hx)) hnd.2
          e hrest

theorem run_ingest_all_skipped (fresh : Nat → String) (events : List Event)
    (idx : Index) (n : Nat)
    (h : ∀ e ∈ events, e.id ≠ "" ∧ ∃ p,
      scroll_by_event_id idx e.id = some p ∧ p.hash = ingest_chunk_hash e) :
    run_ingest fresh events idx n = (⟨0, 0, events.length⟩, idx, n) := by
  induction events with
  | nil => rfl
  | cons a rest ih =>
      obtain ⟨hid, p, hscr, hh⟩ := h a (List.mem_cons_self a rest)
      have hstep : ingest_event fresh idx n a =
          (.skippedUnchanged, idx, n) := by
        unfold ingest_event
        rw [if_neg hid]
        simp [hscr, hh]
      simp only [run_ingest, hstep]
      rw [ih (fun e he => h e (List.mem_cons_of_mem a he))]
      simp [IngestCounts.bump, List.length_cons]

/-- Claim C4: ingestion is idempotent — for a snapshot whose events all
carry an id (pairwise distinct, as snapshots are id-keyed), running the
ingest loop a second time on the identical snapshot, starting from the
index produced by the first run, returns inserted = 0, updated = 0 and
counts every event as skipped_unchanged, whatever uuids either run
drew. -/
theorem ingest_idempotent (fresh1 fresh2 : Nat → String)
    (events : List Event) (idx : Index) (n m : Nat)
    (hids : ∀ e ∈ events, e.id ≠ "")
    (hnd : (events.map Event.id).Nodup) :
    (run_ingest fresh2 events (run_ingest fresh1 events idx n).2.1 m).1 =
      ⟨0, 0, events.length⟩ := by
  have hstate := run_ingest_establishes fresh1 events idx n hids hnd
  rw [run_ingest_all_skipped fresh2 events _ m
    (fun e he => ⟨hids e he, hstate e he⟩)]

def c4_e1 : Event :=
  { id := "e1", title := "t1", description := "d1",
    start_date := "2025-01-01", end_date := "2025-01-02" }

def c4_e2 : Event :=
  { id := "e2", title := "t2", description := "d2",
    start_date := "2025-02-01", end_date := "2025-02-02" }

/-- Witness for `ingest_idempotent` on a concrete two-event snapshot. -/
theorem ingest_idempotent_witness :
    ((∀ e ∈ [c4_e1, c4_e2], e.id ≠ "") ∧
      (([c4_e1, c4_e2].map Event.id).Nodup)) ∧
    (run_ingest (fun k => "v" ++ toString k) [c4_e1, c4_e2]
        (run_ingest (fun k => "u" ++ toString k) [c4_e1, c4_e2] [] 0).2.1
        0).1 = ⟨0, 0, 2⟩ :=
  ⟨⟨by decide, by decide⟩,
    ingest_idempotent (fun k => "u" ++ toString k)
      (fun k => "v" ++ toString k) [c4_e1, c4_e2] [] 0 0 (by decide)
      (by decide)⟩

/-! ### Claim C3 -- keyed JSON delta classification -/

def DictInv (acc : List (String × Event)) : Prop :=
  (∀ kv ∈ acc, kv.2.id = kv.1) ∧ (acc.map Prod.fst).Nodup

theorem pyInsert_inv (acc : List (String × Event)) (e : Event)
    (h : DictInv acc) : DictInv (pyInsert acc e) := by
  obtain ⟨hcons, hnd⟩ := h
  unfold pyInsert
  by_cases hmem : (acc.find? (fun kv => kv.1 = e.id)).isSome
  · rw [if_pos hmem]
    constructor
    · intro kv hkv
      rw [List.mem_map] at hkv
      obtain ⟨kv0, hkv0, heq⟩ := hkv
      by_cases hk : kv0.1 = e.id
      · rw [← heq]
        simp [hk]
      · rw [← heq]
        simp only [hk, if_false]
        exact hcons kv0 hkv0
    · have hsame : (acc.map (fun kv =>
          if kv.1 = e.id then (kv.1, e) else kv)).map Prod.fst =
          acc.map Prod.fst := by
        rw [List.map_map]
        apply List.map_congr_left
        intro kv hkv
        by_cases hk : kv.1 = e.id <;> simp [hk]
      rw [hsame]
      exact hnd
  · rw [if_neg hmem]
    have hnone : acc.find? (fun kv => kv.1 = e.id) = none :=
      Option.not_isSome_iff_eq_none.mp hmem
    have hno : ∀ kv ∈ acc, kv.1 ≠ e.id := by
      intro kv hkv
      have := List.find?_eq_none.mp hnone kv hkv
      simpa using this
    constructor
    · intro kv hkv
      rcases List.mem_append.mp hkv with hl | hr
      · exact hcons kv hl
      · rw [List.mem_singleton] at hr
        rw [hr]
    · rw [List.map_append, List.nodup_append]
      refine ⟨hnd, List.nodup_singleton _, ?_⟩
      intro x hx hx2
      rw [List.mem_map] at hx
      obtain ⟨kv0, hkv0, heq⟩ := hx
      simp only [List.map_cons, List.map_nil, List.mem_singleton] at hx2
      exact hno kv0 hkv0 (heq.trans hx2)

theorem pyDict_inv (l : List Event) : DictInv (pyDict l) := by
  have hgen : ∀ (l : List Event) (acc : List (String × Event)),
      DictInv acc → DictInv (l.foldl pyInsert acc) := by
    intro l
    induction l with
    | nil => intro acc h; exact h
    | cons e rest ih =>
        intro acc h
        exact ih (pyInsert acc e) (pyInsert_inv acc e h)
  exact hgen l [] ⟨fun kv hkv => (List.not_mem_nil kv hkv).elim, List.nodup_nil⟩

theorem findById_filterMap (u : List (String × Event))
    (f : String × Event → Option Event) (k : String)
    (hcons : ∀ kv ∈ u, kv.2.id = kv.1)
    (hnd : (u.map Prod.fst).Nodup)
    (hf : ∀ kv r, f kv = some r → r.id = kv.2.id) :
    findById (u.filterMap f) k = (lookupA u k).bind (fun e => f (k, e)) := by
  induction u with
  | nil => rfl
  | cons kv0 rest ih =>
      rw [List.map_cons, List.nodup_cons] at hnd
      have hcons0 : kv0.2.id = kv0.1 := hcons kv0 (List.mem_cons_self kv0 rest)
      have hconsr : ∀ kv ∈ rest, kv.2.id = kv.1 :=
        fun kv hkv => hcons kv (List.mem_cons_of_mem kv0 hkv)
      have ihr := ih hconsr hnd.2
      by_cases hk : kv0.1 = k
      · have hlook : lookupA (kv0 :: rest) k = some kv0.2 := by
          unfold lookupA
          simp [List.find?, hk]
        rw [hlook]
        have hkv0 : (k, kv0.2) = kv0 := by
          rw [← hk]
        show findById (List.filterMap f (kv0 :: rest)) k = f (k, kv0.2)
        rw [hkv0]
        cases hfv : f kv0 with
        | some r =>
            simp only [List.filterMap_cons, hfv]
            unfold findById
            have hrid : r.id = k := by
              rw [hf kv0 r hfv, hcons0, hk]
            simp [List.find?, hrid, hfv]
        | none =>
            simp only [List.filterMap_cons, hfv]
            rw [ihr]
            have : lookupA rest k = none := by
              unfold lookupA
              rw [List.find?_eq_none.mpr]
              · rfl
              · intro kv hkv
                simp only [decide_eq_true_eq]
                intro heq
                have hm : kv.1 ∈ List.map Prod.fst rest :=
                  List.mem_map_of_mem Prod.fst hkv
                rw [heq, ← hk] at hm
                exact hnd.1 hm
            rw [this]
            rfl
      · have hlook : lookupA (kv0 :: rest) k = lookupA rest k := by
          unfold lookupA
          simp [List.find?, hk]
        rw [hlook, ← ihr]
        cases hfv : f kv0 with
        | some r =>
            simp only [List.filterMap_cons, hfv]
            unfold findById
            have hrid : r.id = kv0.1 := by
              rw [hf kv0 r hfv, hcons0]
            rw [List.find?_cons_of_neg]
            simp only [decide_eq_true_eq, hrid]
            exact hk
        | none =>
            simp only [List.filterMap_cons, hfv]

theorem findById_append (l1 l2 : List Event) (k : String) :
    findById (l1 ++ l2) k =
      match findById l1 k with
      | some e => some e
      | none => findById l2 k := by
  unfold findById
  rw [List.find?_append]
  cases l1.find? (fun e => e.id = k) with
  | some e => rfl
  | none => rfl

/-- Claim C3: for every pair of snapshots, `compute_json_delta` tags by
key identity — the record it emits for key `k` is exactly
`keyed_delta_spec`: the new record tagged "added" when `k` is only in the
current snapshot, the new record tagged "changed" when `k` is in both
with differing content hashes, the former record tagged "removed" when
`k` is only in the previous snapshot, and no record when `k` is in both
with equal hashes; with no previous snapshot every current record is
tagged "added". -/
theorem compute_json_delta_classifies (oldL newL : List Event)
    (k : String) :
    findById (compute_json_delta (some oldL) newL) k =
      keyed_delta_spec oldL newL k ∧
    compute_json_delta none newL = newL.map (fun e => setTag e "added") := by
  refine ⟨?_, rfl⟩
  obtain ⟨hconsN, hndN⟩ := pyDict_inv newL
  obtain ⟨hconsO, hndO⟩ := pyDict_inv oldL
  have hfN : ∀ kv r, jd_addedChanged (pyDict oldL) kv = some r →
      r.id = kv.2.id := by
    intro kv r h
    unfold jd_addedChanged at h
    cases hl : lookupA (pyDict oldL) kv.1 with
    | none =>
        simp only [hl] at h
        injection h with h1
        rw [← h1]
        rfl
    | some oe =>
        simp only [hl] at h
        by_cases hne : generate_content_hash kv.2 ≠ generate_content_hash oe
        · rw [if_pos hne] at h
          injection h with h1
          rw [← h1]
          rfl
        · rw [if_neg hne] at h
          cases h
  have hfR : ∀ kv r, jd_removed (pyDict newL) kv = some r →
      r.id = kv.2.id := by
    intro kv r h
    unfold jd_removed at h
    by_cases hi : (lookupA (pyDict newL) kv.1).isNone
    · rw [if_pos hi] at h
      injection h with h1
      rw [← h1]
      rfl
    · rw [if_neg hi] at h
      cases h
  have hA := findById_filterMap (pyDict newL) (jd_addedChanged (pyDict oldL))
    k hconsN hndN hfN
  have hR := findById_filterMap (pyDict oldL) (jd_removed (pyDict newL))
    k hconsO hndO hfR
  have hsplit : compute_json_delta (some oldL) newL =
      (pyDict newL).filterMap (jd_addedChanged (pyDict oldL)) ++
        (pyDict oldL).filterMap (jd_removed (pyDict newL)) := rfl
  rw [hsplit, findById_append, hA, hR]
  unfold keyed_delta_spec pyLookup
  cases hnew : lookupA (pyDict newL) k with
  | some ne =>
      cases hold : lookupA (pyDict oldL) k with
      | none => simp [jd_addedChanged, hold]
      | some oe =>
          by_cases hne : generate_content_hash ne ≠ generate_content_hash oe
          · simp [jd_addedChanged, hold, hne]
          · simp only [jd_addedChanged, jd_removed, hold, hne, hnew]
            rw [not_ne_iff] at hne
            simp [hne]
  | none =>
      cases hold : lookupA (pyDict oldL) k with
      | none => rfl
      | some oe => simp [jd_removed, hold, hnew]

end Remap
